import Mathlib

/-!
Shallow embedding of the `mouse_forms` crate: the document model and
attribute validation (`src/models.rs`, `src/models/error.rs`), the
tokenizer (`src/token.rs`) and the tree builder (`src/parser.rs`).
Machine integers (`u16`) are modelled as `Nat` with explicit range checks
in the string parser; fallible Rust code returns `Except`.
-/

namespace MouseForms

/-- An XML attribute as seen by the crate: we keep only `name.local_name`
and `value`, the two projections the source ever reads. -/
structure OwnedAttribute where
  name : String
  value : String
deriving Repr, DecidableEq

/-- `src/models/error.rs`: the shared error taxonomy. -/
inductive SyntacticError where
  | MismatchedTags (open_tag : Option String) (closing_tag : String)
  | InvalidAttribute (attribute_name : String) (context : String)
  | InvalidFieldType (invalid_type : String)
  | InvalidGroupType (invalid_type : String)
  | OrphanElement (context : String)
  | UnnamedElement (context : String)
  | ImproperNesting (context : String)
deriving Repr, DecidableEq

/-- Rust `str::parse::<u16>()`: an optional leading `+`, then one or more
ASCII digits, value at most `65535`; anything else fails. Written over
the string's character list so that it evaluates by reduction. -/
def parseU16 (s : String) : Option Nat :=
  let cs := match s.data with
            | '+' :: rest => rest
            | cs => cs
  if cs.isEmpty then none
  else if cs.all Char.isDigit then
    let n := cs.foldl (fun acc c => acc * 10 + (c.toNat - 48)) 0
    if n ≤ 65535 then some n else none
  else none

/-- `src/models.rs`: the attributes shared by every container element.
Rust field `class` is spelled `classAttr` (`class` is a Lean keyword). -/
structure ElementAttributes where
  requires : Option String
  optional : Bool
  optional_if : Option String
  classAttr : Option String
deriving Repr, DecidableEq

def ElementAttributes.new : ElementAttributes :=
  { requires := none, optional := false, optional_if := none, classAttr := none }

/-- `ElementAttributes::try_apply`: recognize one attribute or fail with
`InvalidAttribute`. -/
def ElementAttributes.try_apply (ea : ElementAttributes)
    (attribute_name value context : String) :
    Except SyntacticError ElementAttributes :=
  match attribute_name with
  | "requires" => .ok { ea with requires := some value }
  | "optional" => .ok { ea with optional := true }
  | "optional-if" => .ok { ea with optional_if := some value }
  | "class" => .ok { ea with classAttr := some value }
  | _ => .error (.InvalidAttribute attribute_name context)

/-- `src/models.rs` `FieldOption`. -/
structure FieldOption where
  name : String
  label : Option String
  attributes : ElementAttributes
deriving Repr, DecidableEq

/-- The attribute loop of `FieldOption::try_from` (state: the `name`
variable and the `self_attributes` accumulator). -/
def FieldOption.applyAttributes :
    List OwnedAttribute → Option String → ElementAttributes →
    Except SyntacticError (Option String × ElementAttributes)
  | [], name, ea => .ok (name, ea)
  | a :: rest, name, ea =>
    match a.name with
    | "name" => FieldOption.applyAttributes rest (some a.value) ea
    | "lang" => FieldOption.applyAttributes rest name ea
    | _ =>
      match ea.try_apply a.name a.value "field" with
      | .ok ea2 => FieldOption.applyAttributes rest name ea2
      | .error e => .error e

/-- `FieldOption::try_from(&Vec<OwnedAttribute>)`. -/
def FieldOption.try_from (attributes : List OwnedAttribute) :
    Except SyntacticError FieldOption :=
  match FieldOption.applyAttributes attributes none ElementAttributes.new with
  | .error e => .error e
  | .ok (name, self_attributes) =>
    match name with
    | some name => .ok { name := name, label := none, attributes := self_attributes }
    | none => .error (.UnnamedElement "option must have a name")

/-- `src/models.rs` `FieldType`. -/
inductive FieldType where
  | Text | Number | Checkbox | File | Image | Select | MultiSelect
  | TextArea | Date | Email | Tel | Url | Grid
deriving Repr, DecidableEq

/-- `FieldType::try_from(&String)`. -/
def FieldType.try_from (s : String) : Except SyntacticError FieldType :=
  match s with
  | "text" => .ok .Text
  | "number" => .ok .Number
  | "date" => .ok .Date
  | "checkbox" => .ok .Checkbox
  | "select" => .ok .Select
  | "multi-select" => .ok .MultiSelect
  | "file" => .ok .File
  | "image" => .ok .Image
  | "textarea" => .ok .TextArea
  | "email" => .ok .Email
  | "tel" => .ok .Tel
  | "url" => .ok .Url
  | "grid" => .ok .Grid
  | _ => .error (.InvalidFieldType s)

/-- `src/models.rs` `Field`. -/
structure Field where
  name : String
  field_type : FieldType
  instructions : Option String
  label : Option String
  length : Nat
  placeholder : Option String
  attributes : ElementAttributes
  rows : List Nat
  options : List FieldOption
deriving Repr, DecidableEq

/-- The cell loop of `Field::parse_rows` over the pieces of
`s.split(' ')`; `s` is the whole attribute value, used in the error
context. -/
def Field.parseRowsAux (s : String) : List String → Except SyntacticError (List Nat)
  | [] => .ok []
  | cell :: rest =>
    match parseU16 cell with
    | some dim =>
      match Field.parseRowsAux s rest with
      | .ok r => .ok (dim :: r)
      | .error e => .error e
    | none =>
      .error (.InvalidAttribute "rows"
        ("could not parse the value of rows attribute: " ++ s))

/-- `Field::parse_rows`. -/
def Field.parse_rows (s : String) : Except SyntacticError (List Nat) :=
  Field.parseRowsAux s (s.splitOn " ")

/-- The attribute loop of `Field::try_from` (state: `name`, `field_type`,
`placeholder`, `length`, `rows`, `self_attributes`). -/
def Field.applyAttributes :
    List OwnedAttribute → Option String → Option FieldType → Option String →
    Nat → List Nat → ElementAttributes →
    Except SyntacticError
      (Option String × Option FieldType × Option String × Nat × List Nat × ElementAttributes)
  | [], name, ft, ph, len, rows, ea => .ok (name, ft, ph, len, rows, ea)
  | a :: rest, name, ft, ph, len, rows, ea =>
    match a.name with
    | "name" => Field.applyAttributes rest (some a.value) ft ph len rows ea
    | "type" =>
      match FieldType.try_from a.value with
      | .ok t => Field.applyAttributes rest name (some t) ph len rows ea
      | .error e => .error e
    | "placeholder" => Field.applyAttributes rest name ft (some a.value) len rows ea
    | "rows" =>
      match Field.parse_rows a.value with
      | .ok r => Field.applyAttributes rest name ft ph len r ea
      | .error e => .error e
    | "length" =>
      match parseU16 a.value with
      | some n => Field.applyAttributes rest name ft ph n rows ea
      | none =>
        .error (.InvalidAttribute "length" "field; length should be a whole number")
    | _ =>
      match ea.try_apply a.name a.value "field; unrecognized attribute" with
      | .ok ea2 => Field.applyAttributes rest name ft ph len rows ea2
      | .error e => .error e

/-- `Field::try_from(&Vec<OwnedAttribute>)`. -/
def Field.try_from (attributes : List OwnedAttribute) :
    Except SyntacticError Field :=
  match Field.applyAttributes attributes none none none 0 [] ElementAttributes.new with
  | .error e => .error e
  | .ok (name, ft, ph, len, rows, ea) =>
    match name with
    | none => .error (.UnnamedElement "field must have a name")
    | some name =>
      match ft with
      | none => .error (.InvalidFieldType "fields must have a type")
      | some field_type =>
        .ok { name := name, field_type := field_type, instructions := none,
              length := len, rows := rows, label := none, placeholder := ph,
              attributes := ea, options := [] }

/-- `src/models.rs` `GroupType`. -/
inductive GroupType where
  | Row | Subsection
deriving Repr, DecidableEq

/-- `GroupType::try_from(&String)`. -/
def GroupType.try_from (s : String) : Except SyntacticError GroupType :=
  match s with
  | "row" => .ok .Row
  | "subsection" => .ok .Subsection
  | "" => .ok .Row
  | _ => .error (.InvalidGroupType s)

/-- `src/models.rs` `Group`. -/
structure Group where
  name : String
  title : Option String
  instructions : Option String
  members : List Field
  group_type : GroupType
  attributes : ElementAttributes
deriving Repr, DecidableEq

/-- The attribute loop of `Group::try_from` (state: `name`, `group_type`,
`self_attributes`; the source passes the context string `"field"`). -/
def Group.applyAttributes :
    List OwnedAttribute → Option String → Option GroupType → ElementAttributes →
    Except SyntacticError (Option String × Option GroupType × ElementAttributes)
  | [], name, gt, ea => .ok (name, gt, ea)
  | a :: rest, name, gt, ea =>
    match a.name with
    | "name" => Group.applyAttributes rest (some a.value) gt ea
    | "type" =>
      match GroupType.try_from a.value with
      | .ok t => Group.applyAttributes rest name (some t) ea
      | .error e => .error e
    | _ =>
      match ea.try_apply a.name a.value "field" with
      | .ok ea2 => Group.applyAttributes rest name gt ea2
      | .error e => .error e

/-- `Group::try_from(&Vec<OwnedAttribute>)`: an absent name defaults to
the empty string (the `UnnamedElement` check is commented out in the
source). -/
def Group.try_from (attributes : List OwnedAttribute) :
    Except SyntacticError Group :=
  match Group.applyAttributes attributes none none ElementAttributes.new with
  | .error e => .error e
  | .ok (name, gt, ea) =>
    .ok { name := name.getD "", group_type := gt.getD .Row, title := none,
          instructions := none, attributes := ea, members := [] }

/-- `src/models.rs` `FormElement`. -/
inductive FormElement where
  | Group (group : Group)
  | Field (field : Field)
deriving Repr, DecidableEq

/-- `src/models.rs` `Section`. -/
structure Section where
  name : String
  title : Option String
  instructions : Option String
  elements : List FormElement
  attributes : ElementAttributes
deriving Repr, DecidableEq

/-- The attribute loop of `Section::try_from` (state: `name`,
`self_attributes`). -/
def Section.applyAttributes :
    List OwnedAttribute → Option String → ElementAttributes →
    Except SyntacticError (Option String × ElementAttributes)
  | [], name, ea => .ok (name, ea)
  | a :: rest, name, ea =>
    match a.name with
    | "name" => Section.applyAttributes rest (some a.value) ea
    | _ =>
      match ea.try_apply a.name a.value "section; attribute is unrecognized" with
      | .ok ea2 => Section.applyAttributes rest name ea2
      | .error e => .error e

/-- `Section::try_from(&Vec<OwnedAttribute>)`. -/
def Section.try_from (attributes : List OwnedAttribute) :
    Except SyntacticError Section :=
  match Section.applyAttributes attributes none ElementAttributes.new with
  | .error e => .error e
  | .ok (name, self_attributes) =>
    match name with
    | some name =>
      .ok { attributes := self_attributes, name := name, instructions := none,
            title := none, elements := [] }
    | none => .error (.UnnamedElement "section must have a name")

/-- `src/models.rs` `Form`. -/
structure Form where
  title : Option String
  unlisted : Bool
  description : Option String
  meta_description : Option String
  dir_description : Option String
  embedded_scripts : List String
  category : Option String
  instructions : Option String
  link : Option String
  index : Nat
  stylesheet : Option String
  sections : List Section
  language : Option String
  keywords : Option String
deriving Repr, DecidableEq

/-- `Form::new`: everything empty, `index` starts at `u16::MAX`. -/
def Form.new : Form :=
  { title := none, unlisted := false, description := none,
    meta_description := none, dir_description := none, category := none,
    link := none, instructions := none, index := 65535,
    embedded_scripts := [], stylesheet := none, sections := [],
    language := none, keywords := none }

/-- `xml::reader::XmlEvent`, restricted to the projections the crate
reads: start tags (local name and attributes), end tags (local name),
character data, and a catch-all for every other event kind. -/
inductive XmlEvent where
  | StartElement (name : String) (attributes : List OwnedAttribute)
  | EndElement (name : String)
  | Characters (characters : String)
  | Other
deriving Repr, DecidableEq

/-- `src/token.rs` `stringify_xml_event`. -/
def stringify_xml_event (xml_event : XmlEvent) : String :=
  match xml_event with
  | .StartElement name attributes =>
    "<" ++ name ++
      (attributes.foldl
        (fun acc a => acc ++ " " ++ a.name ++ "=\"" ++ a.value ++ "\"")
        "") ++ ">"
  | .EndElement name => "</" ++ name ++ ">"
  | .Characters characters => characters
  | .Other => ""

/-- `src/token.rs` `Token`. The `ImplicitLabel` variant is matched by
`src/parser.rs`, so the crate's `Token` enumeration carries it; the
tokenizer in `src/token.rs` never emits it. -/
inductive Token where
  | Category (characters : String) (lang : Option String)
  | Description (characters : String) (lang : Option String)
  | Index (position : Nat)
  | DirDescription (characters : String) (lang : Option String)
  | MetaDescription (characters : String) (lang : Option String)
  | Instructions (characters : String) (lang : Option String)
  | Title (characters : String) (lang : Option String)
  | Label (characters : String) (lang : Option String)
  | ImplicitLabel (characters : String)
  | Link (characters : String)
  | Keywords (characters : String) (lang : Option String)
  | Script (characters : String)
  | Style (characters : String)
  | Option (attributes : List OwnedAttribute)
  | Field (attributes : List OwnedAttribute)
  | Group (attributes : List OwnedAttribute)
  | Section (attributes : List OwnedAttribute)
  | OptionEnd
  | FieldEnd
  | GroupEnd
  | SectionEnd
  | Unlisted
  | None
deriving Repr, DecidableEq

/-- `src/token.rs` `TokenBuffer` (the tokenizer state). -/
structure TokenBuffer where
  tokens : List Token
  alternates : List String
  characters : Option String
  /-- the `lang` attribute captured on the last language-bearing start -/
  lang : Option String
  instructions : Option String
  /-- the document's declared default language -/
  language : Option String
deriving Repr, DecidableEq

/-- The initial tokenizer state built in
`TokenBuffer::from_readable_xml`. -/
def TokenBuffer.new : TokenBuffer :=
  { tokens := [], alternates := [], characters := none, lang := none,
    instructions := none, language := none }

/-- The first `lang` attribute's value in an attribute list
(`attributes.into_iter().find(..).map(..)` as used by
`TokenBuffer::set_lang` and by the parser's `Token::Option` arm). -/
def findLang (attributes : List OwnedAttribute) : Option String :=
  (attributes.find? (fun a => a.name == "lang")).map OwnedAttribute.value

/-- `TokenBuffer::set_lang`. -/
def TokenBuffer.set_lang (buf : TokenBuffer) (attributes : List OwnedAttribute) :
    TokenBuffer :=
  { buf with lang := findLang attributes }

/-- The language resolution computed at the top of `TokenBuffer::on_end`:
`self.lang.take().or_else(|| self.language.clone())`, then a `"*"` value
is flattened to `None`. -/
def resolveLang (lang language : Option String) : Option String :=
  match lang.or language with
  | some l => if l = "*" then none else some l
  | none => none

/-- `TokenBuffer::on_start`. -/
def TokenBuffer.on_start (buf : TokenBuffer) (name : String)
    (attributes : List OwnedAttribute) : TokenBuffer :=
  match name with
  | "category" | "description" | "dir-description" | "meta-description"
  | "title" | "label" | "keywords" => buf.set_lang attributes
  | "link" | "script" | "style" | "index" => buf
  | "unlisted" => { buf with tokens := buf.tokens ++ [Token.Unlisted] }
  | "option" => { buf with tokens := buf.tokens ++ [Token.Option attributes] }
  | "field" => { buf with tokens := buf.tokens ++ [Token.Field attributes] }
  | "group" => { buf with tokens := buf.tokens ++ [Token.Group attributes] }
  | "section" => { buf with tokens := buf.tokens ++ [Token.Section attributes] }
  | "instructions" =>
    let buf := buf.set_lang attributes
    { buf with instructions := some "" }
  | _ => buf

/-- `TokenBuffer::on_end`: resolve the effective language, drain the text
and instructions buffers, then emit at most one token (or record the
default language / the alternates list). -/
def TokenBuffer.on_end (buf0 : TokenBuffer) (name : String) : TokenBuffer :=
  let lang := resolveLang buf0.lang buf0.language
  let characters :=
    match buf0.instructions with
    | some instructions => instructions
    | none => buf0.characters.getD ""
  let buf := { buf0 with lang := none, characters := none, instructions := none }
  match name with
  | "language" => { buf with language := some characters }
  | "category" =>
    { buf with tokens := buf.tokens ++ [Token.Category characters lang] }
  | "description" =>
    { buf with tokens := buf.tokens ++ [Token.Description characters lang] }
  | "dir-description" =>
    { buf with tokens := buf.tokens ++ [Token.DirDescription characters lang] }
  | "meta-description" =>
    { buf with tokens := buf.tokens ++ [Token.MetaDescription characters lang] }
  | "title" =>
    { buf with tokens := buf.tokens ++ [Token.Title characters lang] }
  | "label" =>
    { buf with tokens := buf.tokens ++ [Token.Label characters lang] }
  | "keywords" =>
    { buf with tokens := buf.tokens ++ [Token.Keywords characters lang] }
  | "link" => { buf with tokens := buf.tokens ++ [Token.Link characters] }
  | "script" => { buf with tokens := buf.tokens ++ [Token.Script characters] }
  | "style" => { buf with tokens := buf.tokens ++ [Token.Style characters] }
  | "index" =>
    { buf with tokens :=
        buf.tokens ++ [Token.Index ((parseU16 characters).getD 0)] }
  | "instructions" =>
    { buf with tokens := buf.tokens ++ [Token.Instructions characters lang] }
  | "option" => { buf with tokens := buf.tokens ++ [Token.OptionEnd] }
  | "field" => { buf with tokens := buf.tokens ++ [Token.FieldEnd] }
  | "group" => { buf with tokens := buf.tokens ++ [Token.GroupEnd] }
  | "section" => { buf with tokens := buf.tokens ++ [Token.SectionEnd] }
  | "alternates" =>
    { buf with alternates := characters.split Char.isWhitespace }
  | _ => buf

/-- The `match event` block at the bottom of
`TokenBuffer::dispatch_event` (normal, non-capturing dispatch). -/
def TokenBuffer.handle_event (buf : TokenBuffer) (event : XmlEvent) : TokenBuffer :=
  match event with
  | .StartElement name attributes => buf.on_start name attributes
  | .EndElement name => buf.on_end name
  | .Characters characters => { buf with characters := some characters }
  | .Other => buf

/-- `TokenBuffer::dispatch_event`: while the instructions buffer is live,
every event except an `instructions` end tag is stringified and appended
to it; an `instructions` end tag resumes normal dispatch. -/
def TokenBuffer.dispatch_event (buf : TokenBuffer) (event : XmlEvent) : TokenBuffer :=
  match buf.instructions with
  | some instructions =>
    match event with
    | .EndElement name =>
      if name = "instructions" then buf.handle_event event
      else
        { buf with
            instructions := some (instructions ++ stringify_xml_event event) }
    | _ =>
      { buf with
          instructions := some (instructions ++ stringify_xml_event event) }
  | none => buf.handle_event event

/-- The event loop of `TokenBuffer::from_readable_xml`. -/
def dispatchAll (buf : TokenBuffer) (events : List XmlEvent) : TokenBuffer :=
  events.foldl TokenBuffer.dispatch_event buf

/-- `src/parser.rs` `Parser`: the builder's context record (the token
list is passed to `Parser.run` separately, and the loop-local
`skip_option` flag is threaded through `Parser.step`). -/
structure Parser where
  language : Option String
  form : Form
  current_section : Option Section
  current_group : Option Group
  current_field : Option Field
  current_option : Option FieldOption
deriving Repr, DecidableEq

/-- `Parser::new`. -/
def Parser.new (language : Option String) : Parser :=
  { language := language, form := { Form.new with language := language },
    current_section := none, current_group := none, current_field := none,
    current_option := none }

/-- `Parser::lang_matches`. -/
def Parser.lang_matches (p : Parser) (lang : Option String) : Bool :=
  lang.isNone || p.language == lang

/-- One iteration of the token loop in `Parser::parse`; the `Bool`
component is the `skip_option` flag. -/
def Parser.step (p : Parser) (skip_option : Bool) (token : Token) :
    Except SyntacticError (Parser × Bool) :=
  match token with
  | .None => .ok (p, skip_option)
  | .Unlisted => .ok ({ p with form := { p.form with unlisted := true } }, skip_option)
  | .Category characters lang =>
    if p.lang_matches lang then
      .ok ({ p with form := { p.form with category := some characters } }, skip_option)
    else .ok (p, skip_option)
  | .Description characters lang =>
    if p.lang_matches lang then
      .ok ({ p with form :=
        { p.form with dir_description := some characters,
                      meta_description := some characters,
                      description := some characters } }, skip_option)
    else .ok (p, skip_option)
  | .MetaDescription characters lang =>
    if p.lang_matches lang then
      .ok ({ p with form := { p.form with meta_description := some characters } },
           skip_option)
    else .ok (p, skip_option)
  | .DirDescription characters lang =>
    if p.lang_matches lang then
      .ok ({ p with form := { p.form with dir_description := some characters } },
           skip_option)
    else .ok (p, skip_option)
  | .Keywords characters lang =>
    if p.lang_matches lang then
      .ok ({ p with form := { p.form with keywords := some characters } }, skip_option)
    else .ok (p, skip_option)
  | .Instructions characters lang =>
    if p.lang_matches lang then
      match p.current_field with
      | some field =>
        .ok ({ p with current_field :=
          (some { field with instructions := some characters }) }, skip_option)
      | none =>
        match p.current_group with
        | some group =>
          .ok ({ p with current_group :=
            (some { group with instructions := some characters }) }, skip_option)
        | none =>
          match p.current_section with
          | some sec =>
            .ok ({ p with current_section :=
              (some { sec with instructions := some characters }) }, skip_option)
          | none =>
            .ok ({ p with form := { p.form with instructions := some characters } },
                 skip_option)
    else .ok (p, skip_option)
  | .Label characters lang =>
    if p.lang_matches lang then
      match p.current_option with
      | some option =>
        .ok ({ p with current_option :=
          (some { option with label := some characters }) }, skip_option)
      | none =>
        match p.current_field with
        | some field =>
          .ok ({ p with current_field :=
            (some { field with label := some characters }) }, skip_option)
        | none => .ok (p, skip_option)
    else .ok (p, skip_option)
  | .ImplicitLabel characters =>
    match p.current_option with
    | some option =>
      .ok ({ p with current_option :=
        (some { option with label := some characters }) }, skip_option)
    | none =>
      match p.current_field with
      | some field =>
        .ok ({ p with current_field :=
          (some { field with label := some characters }) }, skip_option)
      | none =>
        match p.current_group with
        | some group =>
          .ok ({ p with current_group :=
            (some { group with title := some characters }) }, skip_option)
        | none =>
          match p.current_section with
          | some sec =>
            .ok ({ p with current_section :=
              (some { sec with title := some characters }) }, skip_option)
          | none => .ok (p, skip_option)
  | .Title characters lang =>
    if p.lang_matches lang then
      match p.current_group with
      | some group =>
        .ok ({ p with current_group :=
          (some { group with title := some characters }) }, skip_option)
      | none =>
        match p.current_section with
        | some sec =>
          .ok ({ p with current_section :=
            (some { sec with title := some characters }) }, skip_option)
        | none =>
          .ok ({ p with form := { p.form with title := some characters } }, skip_option)
    else .ok (p, skip_option)
  | .Section attributes =>
    match Section.try_from attributes with
    | .ok sec => .ok ({ p with current_section := some sec }, skip_option)
    | .error e => .error e
  | .Group attributes =>
    match Group.try_from attributes with
    | .ok group => .ok ({ p with current_group := some group }, skip_option)
    | .error e => .error e
  | .Field attributes =>
    match Field.try_from attributes with
    | .ok field => .ok ({ p with current_field := some field }, skip_option)
    | .error e => .error e
  | .Option attributes =>
    let lang := findLang attributes
    if p.lang_matches lang then
      match FieldOption.try_from attributes with
      | .ok option => .ok ({ p with current_option := some option }, skip_option)
      | .error e => .error e
    else .ok (p, true)
  | .SectionEnd =>
    match p.current_section with
    | some sec =>
      .ok ({ p with current_section := none,
                    form := { p.form with sections := p.form.sections ++ [sec] } },
           skip_option)
    | none => .error (.MismatchedTags none "section")
  | .GroupEnd =>
    match p.current_group with
    | some group =>
      match p.current_section with
      | some sec =>
        .ok ({ p with current_group := none,
                      current_section :=
                        (some { sec with
                          elements := sec.elements ++ [FormElement.Group group] }) },
             skip_option)
      | none => .error (.OrphanElement "group found without a parent section")
    | none => .error (.MismatchedTags none "group")
  | .FieldEnd =>
    match p.current_field with
    | some field =>
      match p.current_group with
      | some group =>
        .ok ({ p with current_field := none,
                      current_group :=
                        (some { group with members := group.members ++ [field] }) },
             skip_option)
      | none =>
        match p.current_section with
        | some sec =>
          .ok ({ p with current_field := none,
                        current_section :=
                          (some { sec with
                            elements := sec.elements ++ [FormElement.Field field] }) },
               skip_option)
        | none => .error (.OrphanElement "field found without a parent section or group")
    | none => .error (.MismatchedTags none "field")
  | .OptionEnd =>
    if skip_option then .ok (p, false)
    else
      match p.current_option with
      | some option =>
        match p.current_field with
        | some field =>
          .ok ({ p with current_option := none,
                        current_field :=
                          (some { field with options := field.options ++ [option] }) },
               skip_option)
        | none => .error (.OrphanElement "option found without field parent")
      | none => .error (.MismatchedTags none "option")
  | .Index position => .ok ({ p with form := { p.form with index := position } }, skip_option)
  | .Link characters =>
    .ok ({ p with form := { p.form with link := some characters } }, skip_option)
  | .Script characters =>
    .ok ({ p with form :=
      { p.form with embedded_scripts := p.form.embedded_scripts ++ [characters] } },
         skip_option)
  | .Style characters =>
    .ok ({ p with form := { p.form with stylesheet := some characters } }, skip_option)

/-- The token loop of `Parser::parse`; the first error aborts the
build. -/
def Parser.run (p : Parser) (skip_option : Bool) :
    List Token → Except SyntacticError Form
  | [] => .ok p.form
  | token :: rest =>
    match p.step skip_option token with
    | .ok (p2, skip2) => p2.run skip2 rest
    | .error e => .error e

/-- `Parser::new(tokens, language).parse()`. -/
def Parser.parse (tokens : List Token) (language : Option String) :
    Except SyntacticError Form :=
  (Parser.new language).run false tokens

/-- The language restriction carried by a token: `some lang` for the
language-bearing token kinds, `none` for the rest. -/
def tokenLangRestriction : Token → Option (Option String)
  | .Category _ lang => some lang
  | .Description _ lang => some lang
  | .DirDescription _ lang => some lang
  | .MetaDescription _ lang => some lang
  | .Instructions _ lang => some lang
  | .Title _ lang => some lang
  | .Label _ lang => some lang
  | .Keywords _ lang => some lang
  | _ => none

/-- The effective-language rule as the specification words it (spec-side
definition, to be compared with `resolveLang` from the source): the
explicit `lang` attribute if present, else the document's declared
default language if known, else none; a resolved literal `"*"` is
normalized to "no restriction". -/
def specEffectiveLanguage (explicit declaredDefault : Option String) : Option String :=
  match explicit with
  | some l => if l = "*" then none else some l
  | none =>
    match declaredDefault with
    | some d => if d = "*" then none else some d
    | none => none

/-- Whether an event is the end tag that terminates verbatim capture
(the check inside `TokenBuffer::dispatch_event`). -/
def isInstructionsEnd : XmlEvent → Bool
  | .EndElement name => name == "instructions"
  | _ => false

/-- The "all attributes are recognized and their values valid" premise
for a field start token, spelled per attribute. -/
def fieldAttrRecognized (a : OwnedAttribute) : Prop :=
  a.name ∈ (["requires", "optional", "optional-if", "class", "placeholder"] : List String) ∨
  (a.name = "type" ∧ (FieldType.try_from a.value).isOk = true) ∨
  (a.name = "rows" ∧ (Field.parse_rows a.value).isOk = true) ∨
  (a.name = "length" ∧ (parseU16 a.value).isSome = true)

theorem dispatchAll_cons (buf : TokenBuffer) (e : XmlEvent) (es : List XmlEvent) :
    dispatchAll buf (e :: es) = dispatchAll (buf.dispatch_event e) es := rfl

theorem dispatchAll_append (buf : TokenBuffer) (l1 l2 : List XmlEvent) :
    dispatchAll buf (l1 ++ l2) = dispatchAll (dispatchAll buf l1) l2 :=
  List.foldl_append _ _ _ _

theorem resolveLang_eq_spec (lang language : Option String) :
    resolveLang lang language = specEffectiveLanguage lang language := by
  cases lang <;> cases language <;> rfl

/-- C1: the builder applies a text token's payload if and only if the
token's captured language is no restriction (`none`) or equals the target
language; two matching tokens of the same kind for the same open
container overwrite, so the later one wins. Concretely, for two title
tokens (first without `lang`, second with `lang="en"`), building for `en`
yields the second's text and building for `fr` yields the first's. -/
theorem C1_language_filter_last_wins :
    (∀ (p : Parser) (lang : Option String),
        p.lang_matches lang = true ↔ (lang = none ∨ lang = p.language)) ∧
    (∀ (p : Parser) (skip : Bool) (characters : String) (lang : Option String),
        p.lang_matches lang = false →
        p.step skip (Token.Title characters lang) = .ok (p, skip)) ∧
    (∀ (p : Parser) (skip : Bool) (characters : String) (lang : Option String),
        p.lang_matches lang = true →
        p.current_group = none → p.current_section = none →
        p.step skip (Token.Title characters lang) =
          .ok ({ p with form := { p.form with title := some characters } }, skip)) ∧
    (∀ c1 c2 : String,
        Parser.parse [Token.Title c1 none, Token.Title c2 (some "en")] (some "en") =
          .ok { Form.new with language := some "en", title := some c2 } ∧
        Parser.parse [Token.Title c1 none, Token.Title c2 (some "en")] (some "fr")
          = .ok { Form.new with language := some "fr", title := some c1 }) := by
  refine ⟨?_, ?_, ?_, ?_⟩
  · intro p lang
    cases lang with
    | none => simp [Parser.lang_matches]
    | some v =>
      simp only [Parser.lang_matches, Option.isNone_some, Bool.false_or, beq_iff_eq]
      constructor
      · intro h
        exact Or.inr h.symm
      · rintro (h | h)
        · exact absurd h (by simp)
        · exact h.symm
  · intro p skip characters lang h
    simp [Parser.step, h]
  · intro p skip characters lang h hg hs
    simp [Parser.step, h, hg, hs]
  · intro c1 c2
    exact ⟨rfl, rfl⟩

/-- Witness for C1 at a concrete builder state and token. -/
theorem C1_witness :
    (Parser.new (some "en")).step false (Token.Title "hello" none) =
      .ok ({ Parser.new (some "en") with
              form := { (Parser.new (some "en")).form with title := some "hello" } },
           false) :=
  C1_language_filter_last_wins.2.2.1 (Parser.new (some "en")) false "hello" none
    rfl rfl rfl

/-- C2: on the start of a language-bearing leaf element the tokenizer
captures that element's `lang` attribute, and on its end event it
resolves the emitted token's effective language as the explicit `lang`
attribute if present, else the declared default language, else none,
with a resolved literal `"*"` normalized to no restriction; a token with
no restriction applies under every target language. -/
theorem C2_effective_language :
    (∀ (buf : TokenBuffer) (attributes : List OwnedAttribute),
        (buf.on_start "title" attributes).lang =
          (attributes.find? (fun a => a.name == "lang")).map OwnedAttribute.value) ∧
    (∀ (buf : TokenBuffer) (name : String),
        name ∈ (["category", "description", "dir-description", "meta-description",
                 "title", "label", "keywords", "instructions"] : List String) →
        ∃ t : Token,
          (buf.on_end name).tokens = buf.tokens ++ [t] ∧
          tokenLangRestriction t = some (specEffectiveLanguage buf.lang buf.language)) ∧
    (∀ p : Parser, p.lang_matches none = true) := by
  refine ⟨fun buf attributes => rfl, ?_, fun p => rfl⟩
  intro buf name h
  have hr := resolveLang_eq_spec buf.lang buf.language
  simp only [List.mem_cons, List.mem_singleton] at h
  rcases h with rfl | rfl | rfl | rfl | rfl | rfl | rfl | rfl | h
  · exact ⟨_, rfl, by simp [tokenLangRestriction, hr]⟩
  · exact ⟨_, rfl, by simp [tokenLangRestriction, hr]⟩
  · exact ⟨_, rfl, by simp [tokenLangRestriction, hr]⟩
  · exact ⟨_, rfl, by simp [tokenLangRestriction, hr]⟩
  · exact ⟨_, rfl, by simp [tokenLangRestriction, hr]⟩
  · exact ⟨_, rfl, by simp [tokenLangRestriction, hr]⟩
  · exact ⟨_, rfl, by simp [tokenLangRestriction, hr]⟩
  · exact ⟨_, rfl, by simp [tokenLangRestriction, hr]⟩
  · exact absurd h (by simp)

/-- Witness for C2: the end of a `title` element whose start carried
`lang="*"`, in a document whose default language is `en`. -/
theorem C2_witness :
    ∃ t : Token,
      (TokenBuffer.on_end
          { tokens := [], alternates := [], characters := some "T",
            lang := some "*", instructions := none, language := some "en" }
          "title").tokens = [] ++ [t] ∧
      tokenLangRestriction t = some (specEffectiveLanguage (some "*") (some "en")) :=
  C2_effective_language.2.1
    { tokens := [], alternates := [], characters := some "T",
      lang := some "*", instructions := none, language := some "en" }
    "title" (by simp)

theorem dispatch_event_capturing (tks : List Token) (alts : List String)
    (chars lng dlang : Option String) (i : String) (e : XmlEvent)
    (he : isInstructionsEnd e = false) :
    TokenBuffer.dispatch_event ⟨tks, alts, chars, lng, some i, dlang⟩ e =
      ⟨tks, alts, chars, lng, some (i ++ stringify_xml_event e), dlang⟩ := by
  cases e with
  | StartElement n a => rfl
  | EndElement n =>
    have hn : ¬(n = "instructions") := by simpa [isInstructionsEnd] using he
    simp [TokenBuffer.dispatch_event, hn]
  | Characters c => rfl
  | Other => rfl

theorem dispatchAll_capturing : ∀ (events : List XmlEvent)
    (tks : List Token) (alts : List String) (chars lng dlang : Option String)
    (i : String),
    (∀ e ∈ events, isInstructionsEnd e = false) →
    dispatchAll ⟨tks, alts, chars, lng, some i, dlang⟩ events =
      ⟨tks, alts, chars, lng,
       some (events.foldl (fun acc e => acc ++ stringify_xml_event e) i), dlang⟩
  | [], _, _, _, _, _, _, _ => rfl
  | e :: rest, tks, alts, chars, lng, dlang, i, h => by
    rw [dispatchAll_cons,
        dispatch_event_capturing tks alts chars lng dlang i e
          (h e (List.mem_cons_self _ _)),
        dispatchAll_capturing rest tks alts chars lng dlang
          (i ++ stringify_xml_event e)
          (fun x hx => h x (List.mem_cons_of_mem _ hx))]
    rfl

/-- C3: from the start of an `instructions` element to its matching end
event, every intervening markup event is serialized back to literal
markup text and concatenated, and exactly one `Instructions` token
carrying the concatenation is emitted. -/
theorem C3_verbatim_instructions (buf : TokenBuffer)
    (attributes : List OwnedAttribute) (events : List XmlEvent)
    (hbuf : buf.instructions = none)
    (hev : ∀ e ∈ events, isInstructionsEnd e = false) :
    (dispatchAll buf
        (XmlEvent.StartElement "instructions" attributes ::
          (events ++ [XmlEvent.EndElement "instructions"]))).tokens =
      buf.tokens ++
        [Token.Instructions
          (events.foldl (fun acc e => acc ++ stringify_xml_event e) "")
          (resolveLang (findLang attributes) buf.language)] := by
  obtain ⟨tks, alts, chars, lng, instr, dlang⟩ := buf
  dsimp only at hbuf
  subst hbuf
  rw [dispatchAll_cons]
  have h1 : TokenBuffer.dispatch_event ⟨tks, alts, chars, lng, none, dlang⟩
      (XmlEvent.StartElement "instructions" attributes) =
      ⟨tks, alts, chars, findLang attributes, some "", dlang⟩ := rfl
  rw [h1, dispatchAll_append,
      dispatchAll_capturing events tks alts chars (findLang attributes) dlang "" hev]
  rfl

/-- Witness for C3: an instructions block containing `<b>bold</b> text`
round-trips into a single token literally carrying `<b>bold</b> text`. -/
theorem C3_witness :
    (dispatchAll TokenBuffer.new
        [XmlEvent.StartElement "instructions" [], XmlEvent.StartElement "b" [],
         XmlEvent.Characters "bold", XmlEvent.EndElement "b",
         XmlEvent.Characters " text", XmlEvent.EndElement "instructions"]).tokens =
      [Token.Instructions "<b>bold</b> text" none] := by
  have h := C3_verbatim_instructions TokenBuffer.new []
    [XmlEvent.StartElement "b" [], XmlEvent.Characters "bold",
     XmlEvent.EndElement "b", XmlEvent.Characters " text"] rfl (by decide)
  exact h

/-- C4: an option start token whose own `lang` attribute does not match
the target language only sets the pending-skip flag; the matching option
end token is then consumed without error and without attaching anything,
clearing the flag; end to end such an option contributes zero entries to
the enclosing field's option list. -/
theorem C4_skipped_option :
    (∀ (p : Parser) (skip : Bool) (attributes : List OwnedAttribute),
        p.lang_matches (findLang attributes) = false →
        p.step skip (Token.Option attributes) = .ok (p, true)) ∧
    (∀ p : Parser, p.step true Token.OptionEnd = .ok (p, false)) ∧
    (Parser.parse
        [Token.Section [⟨"name", "s"⟩],
         Token.Field [⟨"name", "f"⟩, ⟨"type", "select"⟩],
         Token.Option [⟨"name", "o"⟩, ⟨"lang", "fr"⟩],
         Token.OptionEnd, Token.FieldEnd, Token.SectionEnd] (some "en") =
      .ok { Form.new with
              language := some "en",
              sections := [{
                name := "s", title := none, instructions := none,
                elements := [FormElement.Field ({
                  name := "f", field_type := .Select, instructions := none,
                  label := none, length := 0, placeholder := none,
                  attributes := ElementAttributes.new, rows := [],
                  options := [] })],
                attributes := ElementAttributes.new }] }) := by
  refine ⟨?_, fun p => rfl, rfl⟩
  intro p skip attributes h
  simp [Parser.step, h]

/-- Witness for C4 at a concrete builder state: the non-matching option
start only raises the skip flag. -/
theorem C4_witness :
    (Parser.new (some "en")).step false
        (Token.Option [⟨"name", "o"⟩, ⟨"lang", "fr"⟩]) =
      .ok (Parser.new (some "en"), true) :=
  C4_skipped_option.1 (Parser.new (some "en")) false
    [⟨"name", "o"⟩, ⟨"lang", "fr"⟩] rfl

/-- C5 counterexample: a token sequence in which a `field` start token
arrives while a field is already open builds successfully (the claimed
`ImproperNesting` failure does not happen); the second field silently
replaces the first. -/
theorem C5_counterexample :
    Parser.parse
        [Token.Section [⟨"name", "s"⟩],
         Token.Field [⟨"name", "f1"⟩, ⟨"type", "text"⟩],
         Token.Field [⟨"name", "f2"⟩, ⟨"type", "text"⟩],
         Token.FieldEnd, Token.SectionEnd] (some "en") =
      .ok { Form.new with
              language := some "en",
              sections := [{
                name := "s", title := none, instructions := none,
                elements := [FormElement.Field ({
                  name := "f2", field_type := .Text, instructions := none,
                  label := none, length := 0, placeholder := none,
                  attributes := ElementAttributes.new, rows := [],
                  options := [] })],
                attributes := ElementAttributes.new }] } := rfl

/-- C5 amended: encountering a `field` start token while a field is
already open raises no error; the builder silently overwrites the open
field with the newly constructed one. -/
theorem C5_field_overwrite (p : Parser) (skip : Bool)
    (attributes : List OwnedAttribute) (f0 f1 : Field)
    (_hopen : p.current_field = some f0)
    (hnew : Field.try_from attributes = .ok f1) :
    p.step skip (Token.Field attributes) =
      .ok ({ p with current_field := some f1 }, skip) := by
  simp [Parser.step, hnew]

/-- Witness for C5's amended statement at a concrete open field. -/
theorem C5_witness :
    Parser.step
        { Parser.new (some "en") with
            current_field := some ({
              name := "f1", field_type := .Text, instructions := none,
              label := none, length := 0, placeholder := none,
              attributes := ElementAttributes.new, rows := [],
              options := [] }) }
        false (Token.Field [⟨"name", "f2"⟩, ⟨"type", "text"⟩]) =
      .ok ({ Parser.new (some "en") with
               current_field := some ({
                 name := "f2", field_type := .Text, instructions := none,
                 label := none, length := 0, placeholder := none,
                 attributes := ElementAttributes.new, rows := [],
                 options := [] }) },
           false) :=
  C5_field_overwrite _ false [⟨"name", "f2"⟩, ⟨"type", "text"⟩]
    { name := "f1", field_type := .Text, instructions := none, label := none,
      length := 0, placeholder := none, attributes := ElementAttributes.new,
      rows := [], options := [] }
    _ rfl rfl

theorem section_applyAttributes_recognized : ∀ (attrs : List OwnedAttribute)
    (name : Option String) (ea : ElementAttributes),
    (∀ a ∈ attrs,
      a.name ∈ (["requires", "optional", "optional-if", "class"] : List String)) →
    ∃ ea2, Section.applyAttributes attrs name ea = .ok (name, ea2)
  | [], _, ea, _ => ⟨ea, rfl⟩
  | a :: rest, name, ea, h => by
    obtain ⟨an, av⟩ := a
    have ha : an ∈ (["requires", "optional", "optional-if", "class"] : List String) :=
      h ⟨an, av⟩ (List.mem_cons_self _ _)
    have hrest : ∀ x ∈ rest,
        x.name ∈ (["requires", "optional", "optional-if", "class"] : List String) :=
      fun x hx => h x (List.mem_cons_of_mem _ hx)
    simp only [List.mem_cons, List.not_mem_nil, or_false] at ha
    rcases ha with rfl | rfl | rfl | rfl
    · exact section_applyAttributes_recognized rest name
        { ea with requires := some av } hrest
    · exact section_applyAttributes_recognized rest name
        { ea with optional := true } hrest
    · exact section_applyAttributes_recognized rest name
        { ea with optional_if := some av } hrest
    · exact section_applyAttributes_recognized rest name
        { ea with classAttr := some av } hrest

theorem fieldOption_applyAttributes_recognized : ∀ (attrs : List OwnedAttribute)
    (name : Option String) (ea : ElementAttributes),
    (∀ a ∈ attrs,
      a.name ∈ (["requires", "optional", "optional-if", "class", "lang"] : List String)) →
    ∃ ea2, FieldOption.applyAttributes attrs name ea = .ok (name, ea2)
  | [], _, ea, _ => ⟨ea, rfl⟩
  | a :: rest, name, ea, h => by
    obtain ⟨an, av⟩ := a
    have ha : an ∈
        (["requires", "optional", "optional-if", "class", "lang"] : List String) :=
      h ⟨an, av⟩ (List.mem_cons_self _ _)
    have hrest : ∀ x ∈ rest, x.name ∈
        (["requires", "optional", "optional-if", "class", "lang"] : List String) :=
      fun x hx => h x (List.mem_cons_of_mem _ hx)
    simp only [List.mem_cons, List.not_mem_nil, or_false] at ha
    rcases ha with rfl | rfl | rfl | rfl | rfl
    · exact fieldOption_applyAttributes_recognized rest name
        { ea with requires := some av } hrest
    · exact fieldOption_applyAttributes_recognized rest name
        { ea with optional := true } hrest
    · exact fieldOption_applyAttributes_recognized rest name
        { ea with optional_if := some av } hrest
    · exact fieldOption_applyAttributes_recognized rest name
        { ea with classAttr := some av } hrest
    · exact fieldOption_applyAttributes_recognized rest name ea hrest

theorem field_applyAttributes_recognized : ∀ (attrs : List OwnedAttribute)
    (name : Option String) (ft : Option FieldType) (ph : Option String)
    (len : Nat) (rows : List Nat) (ea : ElementAttributes),
    (∀ a ∈ attrs, fieldAttrRecognized a) →
    ∃ ft2 ph2 len2 rows2 ea2,
      Field.applyAttributes attrs name ft ph len rows ea =
        .ok (name, ft2, ph2, len2, rows2, ea2)
  | [], _, ft, ph, len, rows, ea, _ => ⟨ft, ph, len, rows, ea, rfl⟩
  | a :: rest, name, ft, ph, len, rows, ea, h => by
    obtain ⟨an, av⟩ := a
    have ha : fieldAttrRecognized ⟨an, av⟩ := h ⟨an, av⟩ (List.mem_cons_self _ _)
    have hrest : ∀ x ∈ rest, fieldAttrRecognized x :=
      fun x hx => h x (List.mem_cons_of_mem _ hx)
    simp only [fieldAttrRecognized, List.mem_cons, List.not_mem_nil, or_false] at ha
    rcases ha with (rfl | rfl | rfl | rfl | rfl) | ⟨rfl, htype⟩ | ⟨rfl, hrows⟩ | ⟨rfl, hlen⟩
    · exact field_applyAttributes_recognized rest name ft ph len rows
        { ea with requires := some av } hrest
    · exact field_applyAttributes_recognized rest name ft ph len rows
        { ea with optional := true } hrest
    · exact field_applyAttributes_recognized rest name ft ph len rows
        { ea with optional_if := some av } hrest
    · exact field_applyAttributes_recognized rest name ft ph len rows
        { ea with classAttr := some av } hrest
    · exact field_applyAttributes_recognized rest name ft (some av) len rows ea hrest
    · obtain ⟨t, ht⟩ : ∃ t, FieldType.try_from av = .ok t := by
        cases h2 : FieldType.try_from av with
        | ok t => exact ⟨t, rfl⟩
        | error e => rw [h2] at htype; simp [Except.isOk, Except.toBool] at htype
      have hmain := field_applyAttributes_recognized rest name (some t) ph len rows ea hrest
      simpa only [Field.applyAttributes, ht] using hmain
    · obtain ⟨r, hr⟩ : ∃ r, Field.parse_rows av = .ok r := by
        cases h2 : Field.parse_rows av with
        | ok r => exact ⟨r, rfl⟩
        | error e => rw [h2] at hrows; simp [Except.isOk, Except.toBool] at hrows
      have hmain := field_applyAttributes_recognized rest name ft ph len r ea hrest
      simpa only [Field.applyAttributes, hr] using hmain
    · obtain ⟨n, hn⟩ : ∃ n, parseU16 av = some n := Option.isSome_iff_exists.mp hlen
      have hmain := field_applyAttributes_recognized rest name ft ph n rows ea hrest
      simpa only [Field.applyAttributes, hn] using hmain

theorem parse_cons_step_error (t : Token) (language : Option String)
    (e : SyntacticError) (h : (Parser.new language).step false t = .error e)
    (rest : List Token) :
    Parser.parse (t :: rest) language = .error e := by
  simp only [Parser.parse, Parser.run, h]

theorem findLang_eq_none_of_no_lang (attrs : List OwnedAttribute)
    (h : ∀ a ∈ attrs, ¬(a.name = "lang")) : findLang attrs = none := by
  have : attrs.find? (fun a => a.name == "lang") = none :=
    List.find?_eq_none.mpr (by simpa using h)
  simp [findLang, this]

/-- C6 counterexample: a `section` start token with no `name` attribute
but an unrecognized attribute fails with `InvalidAttribute`, not
`UnnamedElement`, and so does the whole build. -/
theorem C6_counterexample :
    Section.try_from [⟨"bogus", "x"⟩] =
      .error (.InvalidAttribute "bogus" "section; attribute is unrecognized") ∧
    Parser.parse [Token.Section [⟨"bogus", "x"⟩]] (some "en") =
      .error (.InvalidAttribute "bogus" "section; attribute is unrecognized") ∧
    Section.try_from [⟨"bogus", "x"⟩] ≠
      .error (.UnnamedElement "section must have a name") := by
  exact ⟨rfl, rfl, fun hEq => SyntacticError.noConfusion (Except.error.inj hEq)⟩

/-- C6 amended: a section, field, or option start token with no `name`
attribute fails with `UnnamedElement` provided its other attributes are
recognized for that element (and their values valid); the build then
fails with the same error (for an option, when the token is actually
processed, i.e. no non-matching `lang` attribute skips it). -/
theorem C6_unnamed_element :
    (∀ attrs : List OwnedAttribute,
      (∀ a ∈ attrs,
        a.name ∈ (["requires", "optional", "optional-if", "class"] : List String)) →
      Section.try_from attrs = .error (.UnnamedElement "section must have a name") ∧
      ∀ (language : Option String) (rest : List Token),
        Parser.parse (Token.Section attrs :: rest) language =
          .error (.UnnamedElement "section must have a name")) ∧
    (∀ attrs : List OwnedAttribute,
      (∀ a ∈ attrs, fieldAttrRecognized a) →
      Field.try_from attrs = .error (.UnnamedElement "field must have a name") ∧
      ∀ (language : Option String) (rest : List Token),
        Parser.parse (Token.Field attrs :: rest) language =
          .error (.UnnamedElement "field must have a name")) ∧
    (∀ attrs : List OwnedAttribute,
      (∀ a ∈ attrs,
        a.name ∈ (["requires", "optional", "optional-if", "class", "lang"] : List String)) →
      FieldOption.try_from attrs =
        .error (.UnnamedElement "option must have a name")) ∧
    (∀ attrs : List OwnedAttribute,
      (∀ a ∈ attrs,
        a.name ∈ (["requires", "optional", "optional-if", "class"] : List String)) →
      ∀ (language : Option String) (rest : List Token),
        Parser.parse (Token.Option attrs :: rest) language =
          .error (.UnnamedElement "option must have a name")) := by
  have hsec : ∀ attrs : List OwnedAttribute,
      (∀ a ∈ attrs,
        a.name ∈ (["requires", "optional", "optional-if", "class"] : List String)) →
      Section.try_from attrs = .error (.UnnamedElement "section must have a name") := by
    intro attrs h
    obtain ⟨ea2, h2⟩ :=
      section_applyAttributes_recognized attrs none ElementAttributes.new h
    simp [Section.try_from, h2]
  have hfld : ∀ attrs : List OwnedAttribute,
      (∀ a ∈ attrs, fieldAttrRecognized a) →
      Field.try_from attrs = .error (.UnnamedElement "field must have a name") := by
    intro attrs h
    obtain ⟨ft2, ph2, len2, rows2, ea2, h2⟩ :=
      field_applyAttributes_recognized attrs none none none 0 [] ElementAttributes.new h
    simp [Field.try_from, h2]
  have hopt : ∀ attrs : List OwnedAttribute,
      (∀ a ∈ attrs,
        a.name ∈ (["requires", "optional", "optional-if", "class", "lang"] : List String)) →
      FieldOption.try_from attrs = .error (.UnnamedElement "option must have a name") := by
    intro attrs h
    obtain ⟨ea2, h2⟩ :=
      fieldOption_applyAttributes_recognized attrs none ElementAttributes.new h
    simp [FieldOption.try_from, h2]
  refine ⟨fun attrs h => ⟨hsec attrs h, ?_⟩,
          fun attrs h => ⟨hfld attrs h, ?_⟩,
          hopt,
          ?_⟩
  · intro language rest
    exact parse_cons_step_error _ _ _ (by simp [Parser.step, hsec attrs h]) rest
  · intro language rest
    exact parse_cons_step_error _ _ _ (by simp [Parser.step, hfld attrs h]) rest
  · intro attrs h language rest
    have hnolang : findLang attrs = none := by
      apply findLang_eq_none_of_no_lang
      intro a ha hc
      have := h a ha
      rw [hc] at this
      simp at this
    have hopt2 : FieldOption.try_from attrs =
        .error (.UnnamedElement "option must have a name") := by
      apply hopt
      intro a ha
      have := h a ha
      simp only [List.mem_cons, List.not_mem_nil, or_false] at this ⊢
      tauto
    refine parse_cons_step_error _ _ _ ?_ rest
    simp [Parser.step, hnolang, Parser.lang_matches, hopt2]

/-- Witness for C6's amended statement: an unnamed section whose only
attribute is the recognized `class`. -/
theorem C6_witness :
    Section.try_from [⟨"class", "x"⟩] =
      .error (.UnnamedElement "section must have a name") :=
  (C6_unnamed_element.1 [⟨"class", "x"⟩] (by decide)).1

/-- C7 counterexample: an `index` element whose text `"abc"` does not
parse yields `Token.Index 0`, and the built Form's index is `0` — not
the max-sentinel `Form.new.index = 65535` the claim requires. -/
theorem C7_counterexample :
    (dispatchAll TokenBuffer.new
        [XmlEvent.StartElement "index" [], XmlEvent.Characters "abc",
         XmlEvent.EndElement "index"]).tokens = [Token.Index 0] ∧
    Parser.parse
        (dispatchAll TokenBuffer.new
          [XmlEvent.StartElement "index" [], XmlEvent.Characters "abc",
           XmlEvent.EndElement "index"]).tokens none =
      .ok { Form.new with index := 0 } ∧
    ({ Form.new with index := 0 } : Form).index ≠ Form.new.index := by
  exact ⟨rfl, rfl, by decide⟩

/-- C7 amended: an `index` element whose text does not parse as a number
resolves to `0` (the numeric type's default, not the max-sentinel), and
processing an index token never produces an error. -/
theorem C7_unparseable_index (s : String) (hs : parseU16 s = none)
    (tks : List Token) (alts : List String) (lng dlang : Option String) :
    (TokenBuffer.on_end ⟨tks, alts, some s, lng, none, dlang⟩ "index").tokens =
      tks ++ [Token.Index 0] ∧
    ∀ (p : Parser) (skip : Bool) (position : Nat),
      p.step skip (Token.Index position) =
        .ok ({ p with form := { p.form with index := position } }, skip) := by
  constructor
  · simp [TokenBuffer.on_end, hs]
  · intro p skip position
    rfl

/-- Witness for C7's amended statement at the unparseable text `"abc"`. -/
theorem C7_witness :
    (TokenBuffer.on_end ⟨[], [], some "abc", none, none, none⟩ "index").tokens =
      [] ++ [Token.Index 0] :=
  (C7_unparseable_index "abc" rfl [] [] none none).1

/-- C8 counterexample: two `Characters` events under one `title` element
produce a token carrying only the second event's text — the buffer is
overwritten, not concatenated. -/
theorem C8_counterexample :
    (dispatchAll TokenBuffer.new
        [XmlEvent.StartElement "title" [], XmlEvent.Characters "Hello ",
         XmlEvent.Characters "World", XmlEvent.EndElement "title"]).tokens =
      [Token.Title "World" none] ∧
    (dispatchAll TokenBuffer.new
        [XmlEvent.StartElement "title" [], XmlEvent.Characters "Hello ",
         XmlEvent.Characters "World", XmlEvent.EndElement "title"]).tokens ≠
      [Token.Title "Hello World" none] := by
  exact ⟨rfl, by decide⟩

/-- C8 amended: outside verbatim capture, a `Characters` event replaces
the tokenizer's text buffer with that event's text (so the emitted token
carries the last event's text), and the buffer is reset on every end
event. -/
theorem C8_characters_overwrite :
    (∀ (buf : TokenBuffer) (characters : String),
        buf.instructions = none →
        buf.dispatch_event (XmlEvent.Characters characters) =
          { buf with characters := some characters }) ∧
    (∀ (buf : TokenBuffer) (name : String),
        (buf.on_end name).characters = none) := by
  constructor
  · intro buf characters h
    simp [TokenBuffer.dispatch_event, h, TokenBuffer.handle_event]
  · intro buf name
    simp only [TokenBuffer.on_end]
    split <;> rfl

/-- Witness for C8's amended statement at a concrete buffer. -/
theorem C8_witness :
    TokenBuffer.dispatch_event TokenBuffer.new (XmlEvent.Characters "x") =
      { TokenBuffer.new with characters := some "x" } :=
  C8_characters_overwrite.1 TokenBuffer.new "x" rfl

/-- C9: a matching `Description` token sets all three of the Form's
`description`, `meta_description` and `dir_description`; a matching
`MetaDescription` token sets only `meta_description`, and a matching
`DirDescription` token sets only `dir_description`. -/
theorem C9_description_variants (p : Parser) (skip : Bool)
    (characters : String) (lang : Option String)
    (h : p.lang_matches lang = true) :
    p.step skip (Token.Description characters lang) =
      .ok ({ p with form := { p.form with
               description := some characters,
               meta_description := some characters,
               dir_description := some characters } }, skip) ∧
    p.step skip (Token.MetaDescription characters lang) =
      .ok ({ p with form := { p.form with
               meta_description := some characters } }, skip) ∧
    p.step skip (Token.DirDescription characters lang) =
      .ok ({ p with form := { p.form with
               dir_description := some characters } }, skip) := by
  refine ⟨?_, ?_, ?_⟩ <;> simp [Parser.step, h]

/-- Witness for C9 at a concrete builder state and token. -/
theorem C9_witness :
    (Parser.new (some "en")).step false (Token.Description "d" (some "en")) =
      .ok ({ Parser.new (some "en") with
              form := { (Parser.new (some "en")).form with
                description := some "d",
                meta_description := some "d",
                dir_description := some "d" } }, false) :=
  (C9_description_variants (Parser.new (some "en")) false "d" (some "en") rfl).1

theorem fieldOption_applyAttributes_filter_lang : ∀ (attrs : List OwnedAttribute)
    (name : Option String) (ea : ElementAttributes),
    FieldOption.applyAttributes attrs name ea =
      FieldOption.applyAttributes (attrs.filter (fun a => a.name != "lang")) name ea
  | [], _, _ => rfl
  | ⟨an, av⟩ :: rest, name, ea => by
    by_cases hl : an = "lang"
    · subst hl
      have hf : (OwnedAttribute.mk "lang" av :: rest).filter
          (fun a => a.name != "lang") = rest.filter (fun a => a.name != "lang") := by
        simp [List.filter]
      rw [hf]
      exact fieldOption_applyAttributes_filter_lang rest name ea
    · have hf : (OwnedAttribute.mk an av :: rest).filter (fun a => a.name != "lang") =
          ⟨an, av⟩ :: rest.filter (fun a => a.name != "lang") := by
        simp [List.filter_cons, hl]
      rw [hf]
      by_cases hn : an = "name"
      · subst hn
        exact fieldOption_applyAttributes_filter_lang rest (some av) ea
      · simp only [FieldOption.applyAttributes]
        cases h2 : ea.try_apply an av "field" with
        | ok ea2 => exact fieldOption_applyAttributes_filter_lang rest name ea2
        | error e => rfl

theorem section_applyAttributes_ok_no_lang : ∀ (attrs : List OwnedAttribute)
    (name : Option String) (ea : ElementAttributes)
    (out : Option String × ElementAttributes),
    Section.applyAttributes attrs name ea = .ok out →
    ∀ a ∈ attrs, ¬(a.name = "lang")
  | [], _, _, _ => fun _ a ha => absurd ha (List.not_mem_nil a)
  | ⟨an, av⟩ :: rest, name, ea, out => by
    intro h a ha
    by_cases han : an = "lang"
    · subst han
      simp [Section.applyAttributes, ElementAttributes.try_apply] at h
    · rcases List.mem_cons.mp ha with rfl | ha2
      · exact han
      · by_cases hn : an = "name"
        · subst hn
          exact section_applyAttributes_ok_no_lang rest (some av) ea out h a ha2
        · cases h2 : ea.try_apply an av "section; attribute is unrecognized" with
          | ok ea3 =>
            have h3 : Section.applyAttributes rest name ea3 = .ok out := by
              simpa only [Section.applyAttributes, h2] using h
            exact section_applyAttributes_ok_no_lang rest name ea3 out h3 a ha2
          | error e =>
            simp only [Section.applyAttributes, h2] at h
            exact Except.noConfusion h

theorem group_applyAttributes_ok_no_lang : ∀ (attrs : List OwnedAttribute)
    (name : Option String) (gt : Option GroupType) (ea : ElementAttributes)
    (out : Option String × Option GroupType × ElementAttributes),
    Group.applyAttributes attrs name gt ea = .ok out →
    ∀ a ∈ attrs, ¬(a.name = "lang")
  | [], _, _, _, _ => fun _ a ha => absurd ha (List.not_mem_nil a)
  | ⟨an, av⟩ :: rest, name, gt, ea, out => by
    intro h a ha
    by_cases han : an = "lang"
    · subst han
      simp [Group.applyAttributes, ElementAttributes.try_apply] at h
    · rcases List.mem_cons.mp ha with rfl | ha2
      · exact han
      · by_cases hn : an = "name"
        · subst hn
          exact group_applyAttributes_ok_no_lang rest (some av) gt ea out h a ha2
        · by_cases ht : an = "type"
          · subst ht
            cases h2 : GroupType.try_from av with
            | ok t =>
              have h3 : Group.applyAttributes rest name (some t) ea = .ok out := by
                simpa only [Group.applyAttributes, h2] using h
              exact group_applyAttributes_ok_no_lang rest name (some t) ea out h3 a ha2
            | error e =>
              simp only [Group.applyAttributes, h2] at h
              exact Except.noConfusion h
          · cases h2 : ea.try_apply an av "field" with
            | ok ea3 =>
              have h3 : Group.applyAttributes rest name gt ea3 = .ok out := by
                simpa only [Group.applyAttributes, h2] using h
              exact group_applyAttributes_ok_no_lang rest name gt ea3 out h3 a ha2
            | error e =>
              simp only [Group.applyAttributes, h2] at h
              exact Except.noConfusion h

theorem field_applyAttributes_ok_no_lang : ∀ (attrs : List OwnedAttribute)
    (name : Option String) (ft : Option FieldType) (ph : Option String)
    (len : Nat) (rows : List Nat) (ea : ElementAttributes)
    (out : Option String × Option FieldType × Option String × Nat × List Nat ×
      ElementAttributes),
    Field.applyAttributes attrs name ft ph len rows ea = .ok out →
    ∀ a ∈ attrs, ¬(a.name = "lang")
  | [], _, _, _, _, _, _, _ => fun _ a ha => absurd ha (List.not_mem_nil a)
  | ⟨an, av⟩ :: rest, name, ft, ph, len, rows, ea, out => by
    intro h a ha
    by_cases han : an = "lang"
    · subst han
      simp [Field.applyAttributes, ElementAttributes.try_apply] at h
    · rcases List.mem_cons.mp ha with rfl | ha2
      · exact han
      · by_cases hn : an = "name"
        · subst hn
          exact field_applyAttributes_ok_no_lang rest (some av) ft ph len rows ea
            out h a ha2
        · by_cases ht : an = "type"
          · subst ht
            cases h2 : FieldType.try_from av with
            | ok t =>
              have h3 : Field.applyAttributes rest name (some t) ph len rows ea =
                  .ok out := by
                simpa only [Field.applyAttributes, h2] using h
              exact field_applyAttributes_ok_no_lang rest name (some t) ph len rows
                ea out h3 a ha2
            | error e =>
              simp only [Field.applyAttributes, h2] at h
              exact Except.noConfusion h
          · by_cases hp : an = "placeholder"
            · subst hp
              exact field_applyAttributes_ok_no_lang rest name ft (some av) len rows
                ea out h a ha2
            · by_cases hrw : an = "rows"
              · subst hrw
                cases h2 : Field.parse_rows av with
                | ok r =>
                  have h3 : Field.applyAttributes rest name ft ph len r ea =
                      .ok out := by
                    simpa only [Field.applyAttributes, h2] using h
                  exact field_applyAttributes_ok_no_lang rest name ft ph len r ea
                    out h3 a ha2
                | error e =>
                  simp only [Field.applyAttributes, h2] at h
                  exact Except.noConfusion h
              · by_cases hlen : an = "length"
                · subst hlen
                  cases h2 : parseU16 av with
                  | some n =>
                    have h3 : Field.applyAttributes rest name ft ph n rows ea =
                        .ok out := by
                      simpa only [Field.applyAttributes, h2] using h
                    exact field_applyAttributes_ok_no_lang rest name ft ph n rows ea
                      out h3 a ha2
                  | none =>
                    simp only [Field.applyAttributes, h2] at h
                    exact Except.noConfusion h
                · cases h2 : ea.try_apply an av "field; unrecognized attribute" with
                  | ok ea3 =>
                    have h3 : Field.applyAttributes rest name ft ph len rows ea3 =
                        .ok out := by
                      simpa only [Field.applyAttributes, h2] using h
                    exact field_applyAttributes_ok_no_lang rest name ft ph len rows
                      ea3 out h3 a ha2
                  | error e =>
                    simp only [Field.applyAttributes, h2] at h
                    exact Except.noConfusion h

/-- C10: a `lang` attribute on an option start token is accepted silently
during `FieldOption` construction — removing every `lang` attribute
changes nothing, so it is neither rejected nor stored — whereas a `lang`
attribute on a section, group, or field start token makes construction
fail; with otherwise-valid attributes the failure is `InvalidAttribute`
naming `lang`. -/
theorem C10_lang_attribute_handling :
    (∀ attrs : List OwnedAttribute,
        FieldOption.try_from attrs =
          FieldOption.try_from (attrs.filter (fun a => a.name != "lang"))) ∧
    (∀ attrs : List OwnedAttribute, (∃ a ∈ attrs, a.name = "lang") →
        (Section.try_from attrs).isOk = false ∧
        (Group.try_from attrs).isOk = false ∧
        (Field.try_from attrs).isOk = false) ∧
    Section.try_from [⟨"name", "s"⟩, ⟨"lang", "en"⟩] =
      .error (.InvalidAttribute "lang" "section; attribute is unrecognized") ∧
    Group.try_from [⟨"name", "g"⟩, ⟨"lang", "en"⟩] =
      .error (.InvalidAttribute "lang" "field") ∧
    Field.try_from [⟨"name", "f"⟩, ⟨"type", "text"⟩, ⟨"lang", "en"⟩] =
      .error (.InvalidAttribute "lang" "field; unrecognized attribute") ∧
    FieldOption.try_from [⟨"name", "o"⟩, ⟨"lang", "en"⟩] =
      .ok { name := "o", label := none, attributes := ElementAttributes.new } := by
  refine ⟨?_, ?_, rfl, rfl, rfl, rfl⟩
  · intro attrs
    unfold FieldOption.try_from
    rw [fieldOption_applyAttributes_filter_lang]
  · intro attrs hlang
    refine ⟨?_, ?_, ?_⟩
    · cases hres : Section.try_from attrs with
      | error e => rfl
      | ok s =>
        exfalso
        unfold Section.try_from at hres
        cases h2 : Section.applyAttributes attrs none ElementAttributes.new with
        | error e => rw [h2] at hres; exact Except.noConfusion hres
        | ok out =>
          obtain ⟨a, ha, hla⟩ := hlang
          exact section_applyAttributes_ok_no_lang attrs none ElementAttributes.new
            out h2 a ha hla
    · cases hres : Group.try_from attrs with
      | error e => rfl
      | ok g =>
        exfalso
        unfold Group.try_from at hres
        cases h2 : Group.applyAttributes attrs none none ElementAttributes.new with
        | error e => rw [h2] at hres; exact Except.noConfusion hres
        | ok out =>
          obtain ⟨a, ha, hla⟩ := hlang
          exact group_applyAttributes_ok_no_lang attrs none none
            ElementAttributes.new out h2 a ha hla
    · cases hres : Field.try_from attrs with
      | error e => rfl
      | ok f =>
        exfalso
        unfold Field.try_from at hres
        cases h2 : Field.applyAttributes attrs none none none 0 []
            ElementAttributes.new with
        | error e => rw [h2] at hres; exact Except.noConfusion hres
        | ok out =>
          obtain ⟨a, ha, hla⟩ := hlang
          exact field_applyAttributes_ok_no_lang attrs none none none 0 []
            ElementAttributes.new out h2 a ha hla

/-- Witness for C10: a section start token carrying only `lang` fails. -/
theorem C10_witness :
    (Section.try_from [(⟨"lang", "en"⟩ : OwnedAttribute)]).isOk = false :=
  (C10_lang_attribute_handling.2.1 [⟨"lang", "en"⟩]
    ⟨⟨"lang", "en"⟩, List.mem_singleton.mpr rfl, rfl⟩).1

end MouseForms
